import Mathlib

/-!
Shallow embedding of the raven-go client pipeline (packet model, encoder,
transport adapter, capture gate) and proofs about it.

Conventions of the embedding:
* rendered output (JSON, header values) is `List Char`; raw bytes are `List Nat`
  (each `< 256` where it matters);
* Go maps are embedded as association lists in some enumeration order;
* external effects (the random source, the HTTP round trip, the clock, the
  DEFLATE codec, the URL parser) enter as explicit arguments;
* fallible Go functions return `Except`/`Option` or a `× Option GoError` pair
  when the Go code mutates in place before failing.
-/

set_option autoImplicit false

namespace Raven

/-- Errors of the raven package and of external calls it makes. -/
inductive GoError where
  | packetDropped
  | missingUser
  | missingProjectID
  | randReadFailed
  | httpStatus (code : Nat) (sentryError : List Char)
  | netFailure (msg : List Char)
  | urlParseFailed (msg : List Char)
  | requestBuildFailed (msg : List Char)
  deriving DecidableEq, Repr

/-! ### Digits and padding helpers (for Go's zero-padded decimal rendering) -/

/-- Decimal digit character for `n < 10`. -/
def digitChar (n : Nat) : Char :=
  Char.ofNat (48 + n % 10)

/-- Fuelled digit accumulation; the fuel only needs to exceed the digit count. -/
def natDigitsAux (fuel n : Nat) : List Char :=
  match fuel with
  | 0 => []
  | fuel + 1 =>
    if n < 10 then [digitChar n]
    else natDigitsAux fuel (n / 10) ++ [digitChar (n % 10)]

/-- Decimal rendering of a natural number, most significant digit first. -/
def natDigits (n : Nat) : List Char :=
  natDigitsAux (n + 1) n

/-- Two-digit zero-padded decimal, as Go's `appendInt(b, x, 2)`. -/
def pad2 (n : Nat) : List Char :=
  if n < 10 then '0' :: natDigits n else natDigits n

/-- Four-digit zero-padded decimal, as Go's year rendering `appendInt(b, year, 4)`. -/
def pad4 (n : Nat) : List Char :=
  if n < 10 then '0' :: '0' :: '0' :: natDigits n
  else if n < 100 then '0' :: '0' :: natDigits n
  else if n < 1000 then '0' :: natDigits n
  else natDigits n

/-- Signed year rendering: Go prints a leading minus for negative years. -/
def yearChars (y : Int) : List Char :=
  if y < 0 then '-' :: pad4 (-y).toNat else pad4 y.toNat

/-! ### The time model

Go's `time.Time` is embedded as absolute seconds/nanoseconds since the Unix
epoch together with the display offset of its location; `UTC()` zeroes the
offset. `IsZero` on the Go side tests the zero `time.Time`; the embedding
carries that as the all-zero record. -/

structure GoTime where
  sec : Int
  nsec : Nat
  offsetMin : Int
  deriving DecidableEq, Repr

namespace GoTime

/-- Model of `time.Time.UTC`: rendering offset becomes zero. -/
def utc (t : GoTime) : GoTime := GoTime.mk t.sec t.nsec 0

/-- Model of `time.Time.IsZero`. -/
def isZero (t : GoTime) : Bool :=
  t.sec == 0 && t.nsec == 0

end GoTime

/-- Civil (proleptic Gregorian) date from a count of days since 1970-01-01,
following the standard era-based conversion used by civil-time libraries. -/
def civilFromDays (z : Int) : Int × Nat × Nat :=
  let z' := z + 719468
  let era := Int.fdiv z' 146097
  let doe := (z' - era * 146097).toNat
  let yoe := (doe - doe / 1460 + doe / 36524 - doe / 146096) / 365
  let doy := doe - (365 * yoe + yoe / 4 - yoe / 100)
  let mp := (5 * doy + 2) / 153
  let d := doy - (153 * mp + 2) / 5 + 1
  let m := if mp < 10 then mp + 3 else mp - 9
  let y : Int := (yoe : Int) + era * 400 + (if m ≤ 2 then 1 else 0)
  (y, m, d)

/-- Wall-clock components Go's formatter reads from a `time.Time`. -/
structure Clock where
  year : Int
  month : Nat
  day : Nat
  hour : Nat
  minute : Nat
  second : Nat
  nsec : Nat
  deriving DecidableEq, Repr

/-- Clock components of a `GoTime`, honouring its display offset. -/
def clockOf (t : GoTime) : Clock :=
  let wall := t.sec + t.offsetMin * 60
  let days := Int.fdiv wall 86400
  let sod := (Int.emod wall 86400).toNat
  let ymd := civilFromDays days
  { year := ymd.1, month := ymd.2.1, day := ymd.2.2,
    hour := sod / 3600, minute := sod % 3600 / 60, second := sod % 60,
    nsec := t.nsec }

/-- Interpreter for the subset of Go's reference-time layout verbs that the
layout constant `timestampFormat` uses: `2006` `01` `02` `15` `04` `05` `.00`;
every other layout character is copied literally. `.00` prints the fractional
second truncated to two digits with trailing zeros kept. -/
def goFormat (c : Clock) : List Char → List Char
  | '2' :: '0' :: '0' :: '6' :: rest => yearChars c.year ++ goFormat c rest
  | '0' :: '1' :: rest => pad2 c.month ++ goFormat c rest
  | '0' :: '2' :: rest => pad2 c.day ++ goFormat c rest
  | '1' :: '5' :: rest => pad2 c.hour ++ goFormat c rest
  | '0' :: '4' :: rest => pad2 c.minute ++ goFormat c rest
  | '0' :: '5' :: rest => pad2 c.second ++ goFormat c rest
  | '.' :: '0' :: '0' :: rest => '.' :: pad2 (c.nsec / 10000000 % 100) ++ goFormat c rest
  | ch :: rest => ch :: goFormat c rest
  | [] => []

/-- The layout constant `timestampFormat`, quotes included, as in the source. -/
def timestampFormat : List Char :=
  '"' :: '2' :: '0' :: '0' :: '6' :: '-' :: '0' :: '1' :: '-' :: '0' :: '2' ::
  'T' :: '1' :: '5' :: ':' :: '0' :: '4' :: ':' :: '0' :: '5' :: '.' :: '0' :: '0' :: ['"']

/-- Model of `Timestamp.MarshalJSON`: format the UTC view of the time with the
layout `timestampFormat` (the error result is always nil in the source). -/
def Timestamp.MarshalJSON (t : GoTime) : List Char :=
  goFormat (clockOf t.utc) timestampFormat

/-! ### JSON rendering

Mirrors Go's `encoding/json` for the shapes the packet uses: object fields in
struct declaration order, map keys sorted bytewise, strings escaped with the
default HTML-safe escaping. -/

/-- Lowercase hexadecimal digit table lookup (Go's `hextable`). -/
def hexDig (n : Nat) : Char :=
  "0123456789abcdef".toList.getD n '0'

/-- Go `encoding/json` escaping of one character: quote, backslash, newline,
carriage return, tab, other control characters as `\u00XX`, and the HTML-unsafe
characters and line/paragraph separators as `\uXXXX`. -/
def escapeChar (ch : Char) : List Char :=
  if ch = '"' then ['\\', '"']
  else if ch = '\\' then ['\\', '\\']
  else if ch = '\n' then ['\\', 'n']
  else if ch = '\r' then ['\\', 'r']
  else if ch = '\t' then ['\\', 't']
  else if ch = '<' then ['\\', 'u', '0', '0', '3', 'c']
  else if ch = '>' then ['\\', 'u', '0', '0', '3', 'e']
  else if ch = '&' then ['\\', 'u', '0', '0', '2', '6']
  else if ch.toNat < 32 then ['\\', 'u', '0', '0', hexDig (ch.toNat / 16), hexDig (ch.toNat % 16)]
  else if ch.toNat = 8232 then ['\\', 'u', '2', '0', '2', '8']
  else if ch.toNat = 8233 then ['\\', 'u', '2', '0', '2', '9']
  else [ch]

/-- JSON string literal rendering, quotes included. -/
def jsonString (s : List Char) : List Char :=
  '"' :: s.flatMap escapeChar ++ ['"']

/-- Comma-joined concatenation of rendered pieces. -/
def joinComma : List (List Char) → List Char
  | [] => []
  | [x] => x
  | x :: xs => x ++ ',' :: joinComma xs

/-- One JSON object member: escaped key, colon, pre-rendered value. -/
def renderField (kv : List Char × List Char) : List Char :=
  jsonString kv.1 ++ ':' :: kv.2

/-- A JSON object from an ordered field list whose values are pre-rendered. -/
def jsonObj (fields : List (List Char × List Char)) : List Char :=
  '{' :: joinComma (fields.map renderField) ++ ['}']

/-- A JSON array from pre-rendered element list. -/
def jsonArr (elems : List (List Char)) : List Char :=
  '[' :: joinComma elems ++ [']']

/-- Computable bytewise (lexicographic) comparison of two strings, the order
in which `encoding/json` writes map keys. -/
def charListLe : List Char → List Char → Bool
  | [], _ => true
  | _ :: _, [] => false
  | a :: as, b :: bs =>
    if a < b then true else if b < a then false else charListLe as bs

/-- Ordering used for entry lists standing in for Go maps: `encoding/json`
writes map keys in ascending byte order. -/
def sortEntries (l : List (List Char × List Char)) : List (List Char × List Char) :=
  l.insertionSort fun a b => charListLe a.1 b.1

/-- Rendering of a Go `map[string]string` value (keys sorted, values strings). -/
def marshalStrMap (m : List (List Char × List Char)) : List Char :=
  jsonObj ((sortEntries m).map fun kv => (kv.1, jsonString kv.2))

/-- Rendering of a Go map whose values are already marshaled JSON fragments
(the packet's `Extra` field). -/
def marshalRawMap (m : List (List Char × List Char)) : List Char :=
  jsonObj (sortEntries m)

/-! ### The packet model -/

/-- A tag key/value pair (`Tag` in the source). -/
structure Tag where
  key : List Char
  value : List Char
  deriving DecidableEq, Repr

/-- Model of `Tag.MarshalJSON`: a two-element JSON array. -/
def Tag.MarshalJSON (t : Tag) : List Char :=
  jsonArr [jsonString t.key, jsonString t.value]

/-- Rendering of the `Tags` slice. -/
def marshalTags (ts : List Tag) : List Char :=
  jsonArr (ts.map Tag.MarshalJSON)

/-- An attached Sentry interface value (`Interface` in the source): its
declared class name, its marshaled JSON body, and — when the concrete type
also implements `Culpriter` — the culprit string it reports. -/
structure Iface where
  cls : List Char
  body : List Char
  culprit : Option (List Char)
  deriving DecidableEq, Repr

/-- Model of the `Packet` struct. Go strings are `List Char`; Go maps are
association lists in enumeration order; the `Interfaces` slice may hold nil
interface values, hence `Option`. -/
structure Packet where
  Message : List Char
  EventID : List Char
  Project : List Char
  Timestamp : GoTime
  Level : List Char
  Logger : List Char
  Platform : List Char
  Culprit : List Char
  ServerName : List Char
  Release : List Char
  Environment : List Char
  Tags : List Tag
  Modules : List (List Char × List Char)
  Fingerprint : List (List Char)
  Extra : List (List Char × List Char)
  Interfaces : List (Option Iface)
  deriving DecidableEq, Repr

/-- Field list of `json.Marshal(packet)` in struct declaration order; the
`omitempty` fields are dropped when empty, and `Interfaces` is tagged away. -/
def structFields (p : Packet) : List (List Char × List Char) :=
  [("message".toList, jsonString p.Message),
   ("event_id".toList, jsonString p.EventID),
   ("project".toList, jsonString p.Project),
   ("timestamp".toList, Timestamp.MarshalJSON p.Timestamp),
   ("level".toList, jsonString p.Level),
   ("logger".toList, jsonString p.Logger)] ++
  (if p.Platform = [] then [] else [("platform".toList, jsonString p.Platform)]) ++
  (if p.Culprit = [] then [] else [("culprit".toList, jsonString p.Culprit)]) ++
  (if p.ServerName = [] then [] else [("server_name".toList, jsonString p.ServerName)]) ++
  (if p.Release = [] then [] else [("release".toList, jsonString p.Release)]) ++
  (if p.Environment = [] then [] else [("environment".toList, jsonString p.Environment)]) ++
  (if p.Tags = [] then [] else [("tags".toList, marshalTags p.Tags)]) ++
  (if p.Modules = [] then [] else [("modules".toList, marshalStrMap p.Modules)]) ++
  (if p.Fingerprint = [] then [] else
    [("fingerprint".toList, jsonArr (p.Fingerprint.map jsonString))]) ++
  (if p.Extra = [] then [] else [("extra".toList, marshalRawMap p.Extra)])

/-! ### Interface map and `Packet.JSON` -/

/-- Model of assignment into the Go map `map[string]Interface`: replace the
entry with the same class in place, or append a fresh one. -/
def insertIface (m : List Iface) (i : Iface) : List Iface :=
  match m with
  | [] => [i]
  | j :: rest => if j.cls = i.cls then i :: rest else j :: insertIface rest i

/-- The map built by `Packet.JSON`'s loop: nil interfaces are skipped, later
entries with a repeated class overwrite earlier ones. -/
def buildMap (l : List (Option Iface)) : List Iface :=
  l.foldl (fun m oi => match oi with | none => m | some i => insertIface m i) []

/-- Map entries in the ascending class-name order `encoding/json` emits. -/
def sortByCls (m : List Iface) : List Iface :=
  m.insertionSort fun a b => charListLe a.cls b.cls

/-- Rendering of the interface map as a JSON object. -/
def marshalIfaces (m : List Iface) : List Char :=
  jsonObj ((sortByCls m).map fun i => (i.cls, i.body))

/-- Model of `Packet.JSON`: marshal the struct, and when the interface map is
non-empty splice its members into the same object by overwriting the struct
object's closing brace with a comma and appending the map object minus its
opening brace. -/
def Packet.JSON (p : Packet) : List Char :=
  let packetJSON := jsonObj (structFields p)
  let interfaces := buildMap p.Interfaces
  if interfaces.length > 0 then
    let interfaceJSON := marshalIfaces interfaces
    (packetJSON.set (packetJSON.length - 1) ',') ++ interfaceJSON.drop 1
  else packetJSON

/-! ### Identity generation and packet defaulting -/

/-- Lowercase hexadecimal rendering of a byte list (Go `hex.EncodeToString`). -/
def hexEncode : List Nat → List Char
  | [] => []
  | b :: rest => hexDig (b / 16) :: hexDig (b % 16) :: hexEncode rest

/-- Model of `uuid()`: `randBytes` is the outcome of `io.ReadFull` on the
crypto random source (`none` = read error, `some` = the 16 bytes read); on
success bytes 6 and 8 get their UUIDv4 version/variant bits forced and the
result is hex encoded. -/
def uuid (randBytes : Option (List Nat)) : Except GoError (List Char) :=
  match randBytes with
  | none => .error .randReadFailed
  | some id =>
    let id := id.set 6 ((id.getD 6 0 &&& 15) ||| 64)
    let id := id.set 8 ((id.getD 8 0 &&& 63) ||| 128)
    .ok (hexEncode id)

/-- Culprit drawn from the interface list in `Packet.Init`: the first
non-empty `Culprit()` of an interface implementing `Culpriter`; empty when
there is none (the loop's final empty assignment is indistinguishable from
leaving the already-empty field alone). -/
def culpritOf : List (Option Iface) → List Char
  | [] => []
  | none :: rest => culpritOf rest
  | some i :: rest =>
    match i.culprit with
    | none => culpritOf rest
    | some c => if c = [] then culpritOf rest else c

/-- Defaulting steps of `Packet.Init` after the event identity is settled:
timestamp, level, logger, server name, platform, culprit. -/
def Packet.initRest (p : Packet) (now : GoTime) (hostname : List Char) : Packet :=
  let p := if p.Timestamp.isZero then { p with Timestamp := now } else p
  let p := if p.Level = [] then { p with Level := "error".toList } else p
  let p := if p.Logger = [] then { p with Logger := "root".toList } else p
  let p := if p.ServerName = [] then { p with ServerName := hostname } else p
  let p := if p.Platform = [] then { p with Platform := "go".toList } else p
  if p.Culprit = [] then { p with Culprit := culpritOf p.Interfaces } else p

/-- Model of `Packet.Init`. Go mutates the packet in place and may return an
error after the project assignment, so the model returns the packet as mutated
so far together with the optional error. `now` and `hostname` stand for
`time.Now()` and the package-level hostname. -/
def Packet.Init (p : Packet) (project : List Char) (randBytes : Option (List Nat))
    (now : GoTime) (hostname : List Char) : Packet × Option GoError :=
  let p := if p.Project = [] then { p with Project := project } else p
  if p.EventID = [] then
    match uuid randBytes with
    | .error e => (p, some e)
    | .ok s => (Packet.initRest { p with EventID := s } now hostname, none)
  else (Packet.initRest p now hostname, none)

/-- Model of `Packet.AddTags`: append every entry of the Go map (in its
enumeration order) to the tag list. -/
def Packet.AddTags (p : Packet) (tags : List (List Char × List Char)) : Packet :=
  { p with Tags := p.Tags ++ tags.map fun kv => Tag.mk kv.1 kv.2 }

/-! ### Encoder and transport -/

/-- Standard base64 alphabet character. -/
def b64char (n : Nat) : Char :=
  "ABCDEFGHIJKLMNOPQRSTUVWXYZabcdefghijklmnopqrstuvwxyz0123456789+/".toList.getD n 'A'

/-- Standard base64 with padding, as `base64.StdEncoding`. -/
def base64Encode : List Nat → List Char
  | [] => []
  | [a] => [b64char (a / 4), b64char (a % 4 * 16), '=', '=']
  | [a, b] => [b64char (a / 4), b64char (a % 4 * 16 + b / 16), b64char (b % 16 * 4), '=']
  | a :: b :: c :: rest =>
    b64char (a / 4) :: b64char (a % 4 * 16 + b / 16) ::
    b64char (b % 16 * 4 + c / 64) :: b64char (c % 64) :: base64Encode rest

/-- Model of `serializedPacket`. The DEFLATE codec (`zlib.NewWriterLevel` at
`zlib.BestCompression`) is an external library and enters as the `deflate`
argument mapping the JSON payload to compressed bytes; `Packet.JSON` never
fails in the model so the source's error path is not represented. -/
def serializedPacket (deflate : List Char → List Nat) (packet : Packet) :
    List Char × List Char :=
  let packetJSON := Packet.JSON packet
  if packetJSON.length > 1000 then
    (base64Encode (deflate packetJSON), "application/octet-stream".toList)
  else (packetJSON, "application/json".toList)

/-- Outcome of the HTTP round trip `t.Do(req)` as far as `Send` reads it:
the status code and the `X-Sentry-Error` response header. -/
structure HTTPResponse where
  statusCode : Nat
  sentryError : List Char
  deriving DecidableEq, Repr

/-- Model of `HTTPTransport.Send`: empty destination short-circuits to
success; otherwise the packet is serialized and posted, a network failure is
returned as is, and a response is a success exactly for status code 200 —
anything else becomes an error carrying the status and the server-reported
`X-Sentry-Error` detail. `doResult` stands for the external `t.Do` call. -/
def HTTPTransport.Send (deflate : List Char → List Nat)
    (doResult : Except GoError HTTPResponse)
    (url authHeader : List Char) (packet : Packet) : Option GoError :=
  if url = [] then none
  else
    let body := serializedPacket deflate packet
    let _ := (body, authHeader)
    match doResult with
    | .error e => some e
    | .ok res =>
      if res.statusCode ≠ 200 then some (.httpStatus res.statusCode res.sentryError)
      else none

/-! ### Client configuration and `SetDSN` -/

/-- The parsed-URL view `Client.SetDSN` consumes: scheme, host, path and the
optional userinfo (username with optional password). -/
structure URLModel where
  scheme : List Char
  host : List Char
  path : List Char
  user : Option (List Char × Option (List Char))
  deriving DecidableEq, Repr

/-- Rendering of a parsed URL whose userinfo has been cleared, as
`url.URL.String` produces it for the DSN shapes the client builds. -/
def URLModel.render (u : URLModel) : List Char :=
  u.scheme ++ "://".toList ++ u.host ++ u.path

/-- Index of the last slash of a path (`strings.LastIndex(path, "/")`),
or `none` for Go's `-1`. -/
def lastSlashIdx (l : List Char) : Option Nat :=
  match l with
  | [] => none
  | c :: rest =>
    match lastSlashIdx rest with
    | some i => some (i + 1)
    | none => if c = '/' then some 0 else none

/-- The configuration fields `Client.SetDSN` may write. -/
structure ClientConfig where
  url : List Char
  projectID : List Char
  authHeader : List Char
  deriving DecidableEq, Repr

/-- Model of `Client.SetDSN`. The URL parser is external and enters as the
`parse` argument. An empty DSN returns immediately; otherwise the userinfo is
required, the project id is the path segment after the last slash (kept from
the previous configuration when the path has no slash, as in the source), the
path is rewritten to the store endpoint, and the auth header is rebuilt with
the public key and, when present, the secret key. -/
def Client.SetDSN (parse : List Char → Except GoError URLModel)
    (client : ClientConfig) (dsn : List Char) : Except GoError ClientConfig :=
  if dsn = [] then .ok client
  else
    match parse dsn with
    | .error e => .error e
    | .ok uri =>
      match uri.user with
      | none => .error .missingUser
      | some (publicKey, secretKey) =>
        let projectID :=
          match lastSlashIdx uri.path with
          | some idx => uri.path.drop (idx + 1)
          | none => client.projectID
        let newPath :=
          match lastSlashIdx uri.path with
          | some idx =>
            uri.path.take (idx + 1) ++ "api/".toList ++ projectID ++ "/store/".toList
          | none => uri.path
        if projectID = [] then .error .missingProjectID
        else
          let url := URLModel.render { uri with path := newPath, user := none }
          let authHeader :=
            match secretKey with
            | some sk =>
              "Sentry sentry_version=4, sentry_key=".toList ++ publicKey ++
              ", sentry_secret=".toList ++ sk
            | none => "Sentry sentry_version=4, sentry_key=".toList ++ publicKey
          .ok { url := url, projectID := projectID, authHeader := authHeader }

/-! ### The capture gate

`Client.Capture` is modeled as a pure function of the client snapshot, the
submitted packet and per-call tags, and the external inputs it consumes: the
sampling draw, the random identity bytes, the clock, the hostname, and the
current queue occupancy. The per-call result channel (`make(chan error, 1)`)
is modeled explicitly so the short-circuit gates' effect on it is visible. -/

/-- A Go channel of capacity one carrying `error` values (`none` = nil error),
observed as its closed flag and buffered contents. -/
structure Chan where
  closed : Bool
  buffer : List (Option GoError)
  deriving DecidableEq, Repr

/-- A receive on the channel completes without blocking exactly when it is
closed or a value is buffered. -/
def Chan.resolved (ch : Chan) : Bool :=
  ch.closed || !ch.buffer.isEmpty

/-- Snapshot of the client state `Capture` reads: default tags, context tags,
configuration strings, sampling rate (a `float32` value, modeled exactly as a
rational), the compiled exclusion matcher (`none` when unset), whether a drop
handler is registered, and the queue capacity. -/
structure ClientModel where
  Tags : List (List Char × List Char)
  contextTags : List (List Char × List Char)
  projectID : List Char
  release : List Char
  environment : List Char
  defaultLoggerName : List Char
  sampleRate : ℚ
  ignoreRegexp : Option (List Char → Bool)
  hasDropHandler : Bool
  queueCap : Nat

/-- Model of `Client.shouldExcludeErr`: false when no pattern is compiled,
otherwise the compiled matcher applied to the message. -/
def Client.shouldExcludeErr (c : ClientModel) (errStr : List Char) : Bool :=
  match c.ignoreRegexp with
  | none => false
  | some f => f errStr

/-- External inputs one `Capture` call consumes. -/
structure CaptureEnv where
  randFloat : ℚ
  randBytes : Option (List Nat)
  now : GoTime
  hostname : List Char
  queueLen : Nat
  deriving Repr

/-- Observable outcome of one `Capture` call: the returned event id and
channel, the unit enqueued for the worker (if any), whether the drop handler
ran, how many outstanding-work registrations the call left open (its
`wg.Add`s minus its `wg.Done`s), and the caller's packet after the gate's
in-place mutation (`none` when the gate never touched it). -/
structure CaptureOutcome where
  eventID : List Char
  ch : Chan
  enqueued : Option Packet
  dropHandlerCalled : Bool
  dropHandlerArg : Option Packet
  wgPending : Nat
  finalPacket : Option Packet
  deriving DecidableEq, Repr

/-- Model of `Client.Capture`, gate for gate: nil client closes the channel;
a sampling miss or an exclusion match returns with the channel untouched; a
nil packet closes the channel; then tags are merged (per-call, client, then
context), the default logger name applied, the packet initialized (an error
resolves the channel and retires the registration), release and environment
defaulted, and the unit enqueued when the queue has room — otherwise the drop
handler runs, the drop error is buffered, and the registration is retired. -/
def Client.Capture (client : Option ClientModel) (env : CaptureEnv)
    (packet : Option Packet) (captureTags : List (List Char × List Char)) :
    CaptureOutcome :=
  let ch : Chan := { closed := false, buffer := [] }
  match client with
  | none =>
    { eventID := [], ch := { ch with closed := true }, enqueued := none,
      dropHandlerCalled := false, dropHandlerArg := none, wgPending := 0, finalPacket := none }
  | some c =>
    if c.sampleRate < 1 ∧ env.randFloat > c.sampleRate then
      { eventID := [], ch := ch, enqueued := none,
        dropHandlerCalled := false, dropHandlerArg := none, wgPending := 0, finalPacket := none }
    else
      match packet with
      | none =>
        { eventID := [], ch := { ch with closed := true }, enqueued := none,
          dropHandlerCalled := false, dropHandlerArg := none, wgPending := 0, finalPacket := none }
      | some p =>
        if Client.shouldExcludeErr c p.Message then
          { eventID := [], ch := ch, enqueued := none,
            dropHandlerCalled := false, dropHandlerArg := none, wgPending := 0, finalPacket := none }
        else
          let p := (p.AddTags captureTags).AddTags c.Tags
          let p := p.AddTags c.contextTags
          let p := if p.Logger = [] ∧ c.defaultLoggerName ≠ [] then
            { p with Logger := c.defaultLoggerName } else p
          match Packet.Init p c.projectID env.randBytes env.now env.hostname with
          | (p1, some e) =>
            { eventID := [], ch := { ch with buffer := [some e] }, enqueued := none,
              dropHandlerCalled := false, dropHandlerArg := none, wgPending := 0,
              finalPacket := some p1 }
          | (p1, none) =>
            let p1 := if p1.Release = [] then { p1 with Release := c.release } else p1
            let p1 := if p1.Environment = [] then { p1 with Environment := c.environment } else p1
            if env.queueLen < c.queueCap then
              { eventID := p1.EventID, ch := ch, enqueued := some p1,
                dropHandlerCalled := false, dropHandlerArg := none, wgPending := 1,
                finalPacket := some p1 }
            else
              { eventID := p1.EventID, ch := { ch with buffer := [some .packetDropped] },
                enqueued := none, dropHandlerCalled := c.hasDropHandler,
                dropHandlerArg := if c.hasDropHandler then some p1 else none,
                wgPending := 0, finalPacket := some p1 }

/-! ### Auxiliary definitions used by the verification

Observation functions over the embedded maps, a spec-side timestamp renderer
for the refinement statement, and concrete fixtures for witness instances. -/

/-- Lookup by class name in the interface map (the unique entry, since
`insertIface` keeps class names distinct). -/
def lookupCls (m : List Iface) (k : List Char) : Option Iface :=
  match m with
  | [] => none
  | i :: rest => if i.cls = k then some i else lookupCls rest k

/-- The last non-nil interface with the given class in the slice — the one Go's
map assignment loop leaves in the map. -/
def lastIface (l : List (Option Iface)) (k : List Char) : Option Iface :=
  match l with
  | [] => none
  | oi :: rest =>
    match lastIface rest k with
    | some i => some i
    | none =>
      match oi with
      | some i => if i.cls = k then some i else none
      | none => none

/-- Class names are pairwise distinct in an interface map. -/
def NodupKeys (m : List Iface) : Prop :=
  m.Pairwise fun a b => a.cls ≠ b.cls

/-- Spec-side rendering of the timestamp for the refinement statement: a
quoted UTC civil time with exactly two fractional-second digits (truncated
centiseconds). -/
def renderCentiUTC (t : GoTime) : List Char :=
  let c := clockOf t.utc
  ['"'] ++ yearChars c.year ++ ['-'] ++ pad2 c.month ++ ['-'] ++ pad2 c.day ++
  ['T'] ++ pad2 c.hour ++ [':'] ++ pad2 c.minute ++ [':'] ++ pad2 c.second ++
  ['.'] ++ pad2 (t.nsec / 10000000) ++ ['"']

/-- A packet with every field at its zero value. -/
def emptyPacket : Packet :=
  Packet.mk [] [] [] ⟨0, 0, 0⟩ [] [] [] [] [] [] [] [] [] [] [] []

/-- Fixture whose JSON payload is exactly 1000 bytes. -/
def pack1000 : Packet :=
  { emptyPacket with Message := List.replicate 899 'a' }

/-- Fixture whose JSON payload is exactly 1001 bytes. -/
def pack1001 : Packet :=
  { emptyPacket with Message := List.replicate 900 'a' }

/-- A client snapshot with all defaults: sampling off (rate 1), no exclusion
pattern, no drop handler, queue capacity 1. -/
def plainClient : ClientModel :=
  { Tags := [], contextTags := [], projectID := [], release := [],
    environment := [], defaultLoggerName := [], sampleRate := 1,
    ignoreRegexp := none, hasDropHandler := false, queueCap := 1 }

/-- A capture environment fixture: zero sampling draw, sixteen zero random
bytes, a non-zero clock, empty hostname, empty queue. -/
def plainEnv : CaptureEnv :=
  { randFloat := 0, randBytes := some (List.replicate 16 0),
    now := ⟨5, 0, 0⟩, hostname := [], queueLen := 0 }

/-- A client sampling at one half, for the sampling-skip gate. -/
def samplingClient : ClientModel :=
  { plainClient with sampleRate := mkRat 1 2 }

/-- An environment whose sampling draw of three quarters misses a rate of one
half. -/
def samplingEnv : CaptureEnv :=
  { plainEnv with randFloat := mkRat 3 4 }

/-- A client whose exclusion pattern matches every message. -/
def excludingClient : ClientModel :=
  { plainClient with ignoreRegexp := some fun _ => true }

/-- The identity string `uuid` produces from a successful 16-byte read. -/
def uuidHex (bs : List Nat) : List Char :=
  hexEncode ((bs.set 6 ((bs.getD 6 0 &&& 15) ||| 64)).set 8
    (((bs.set 6 ((bs.getD 6 0 &&& 15) ||| 64)).getD 8 0 &&& 63) ||| 128))

/-- The packet after the gate's tag merging (per-call, then client, then
context tags) and default-logger application, as mutated before `Init`. -/
def mergedPacket (c : ClientModel) (p : Packet) (tags : List (List Char × List Char)) :
    Packet :=
  let p := (p.AddTags tags).AddTags c.Tags
  let p := p.AddTags c.contextTags
  if p.Logger = [] ∧ c.defaultLoggerName ≠ [] then { p with Logger := c.defaultLoggerName }
  else p

/-- The packet a successful pass through the gate hands to the queue (or to
the drop handler): merged, initialized with the identity from `bs`, and with
release/environment defaulted from the client. -/
def finalGatePacket (c : ClientModel) (env : CaptureEnv) (p : Packet)
    (tags : List (List Char × List Char)) (bs : List Nat) : Packet :=
  let m := mergedPacket c p tags
  let m1 := Packet.initRest { m with
      Project := if m.Project = [] then c.projectID else m.Project,
      EventID := if m.EventID = [] then uuidHex bs else m.EventID } env.now env.hostname
  let m2 := if m1.Release = [] then { m1 with Release := c.release } else m1
  if m2.Environment = [] then { m2 with Environment := c.environment } else m2

/-- A client with one default tag and one context tag sharing the key. -/
def tagClient : ClientModel :=
  { plainClient with
    Tags := [("k".toList, "v".toList)]
    contextTags := [("k".toList, "w".toList)] }

/-- A packet carrying one pre-existing tag. -/
def tagPacket : Packet :=
  { emptyPacket with Tags := [Tag.mk "t".toList "x".toList] }

/-- An environment whose queue is already at the capacity of `plainClient`. -/
def dropEnv : CaptureEnv := { plainEnv with queueLen := 1 }

/-- A client with a project identifier configured. -/
def projClient : ClientModel := { plainClient with projectID := "42".toList }

/-- The packet `projClient` enqueues for an all-empty submission. -/
def capturedQ : Packet :=
  finalGatePacket projClient plainEnv emptyPacket [] (List.replicate 16 0)

/-- A packet whose identity is already set. -/
def idPacket : Packet := { emptyPacket with EventID := "x".toList }

/-- Key order on interface-map entries: ascending class name. -/
def rIface : Iface → Iface → Prop := fun a b => charListLe a.cls b.cls = true

instance rIface_dec : DecidableRel rIface :=
  fun a b => instDecidableEqBool (charListLe a.cls b.cls) true

/-! ## Theorems -/

/-- C10: calling `SetDSN` with an empty connection string returns success and
leaves the destination URL, project identifier and authorization header — the
whole configuration — unchanged. -/
theorem setDSN_empty_dsn_noop :
    ∀ (parse : List Char → Except GoError URLModel) (client : ClientConfig),
      Client.SetDSN parse client [] = .ok client := by
  intro parse client
  rfl

/-- C2 counterexample: status 201 is a 2xx success code, yet
`HTTPTransport.Send` returns a delivery-failure error for it, so the claim
that every 2xx response yields a nil error is false. -/
theorem send_2xx_not_success_counterexample :
    (200 ≤ 201 ∧ 201 < 300) ∧
    HTTPTransport.Send (fun _ => []) (.ok ⟨201, []⟩) "u".toList [] emptyPacket =
      some (.httpStatus 201 []) ∧
    HTTPTransport.Send (fun _ => []) (.ok ⟨201, []⟩) "u".toList [] emptyPacket ≠ none := by
  refine ⟨by decide, rfl, by decide⟩

/-- C2 amended: for a non-empty destination and a completed HTTP round trip,
`HTTPTransport.Send` returns success exactly when the status code is 200, and
any other status (2xx or not) yields a delivery-failure error carrying the
status and the server-reported `X-Sentry-Error` detail. -/
theorem send_ok_iff_status200 :
    ∀ (deflate : List Char → List Nat) (res : HTTPResponse)
      (url auth : List Char) (p : Packet), url ≠ [] →
      (HTTPTransport.Send deflate (.ok res) url auth p = none ↔ res.statusCode = 200) ∧
      (res.statusCode ≠ 200 →
        HTTPTransport.Send deflate (.ok res) url auth p =
          some (.httpStatus res.statusCode res.sentryError)) := by
  intro deflate res url auth p hurl
  unfold HTTPTransport.Send
  rw [if_neg hurl]
  by_cases hs : res.statusCode = 200 <;> simp [hs]

/-- Witness for the C2 amended theorem at a concrete 200 response. -/
theorem send_ok_iff_status200_witness :
    HTTPTransport.Send (fun _ => []) (.ok ⟨200, []⟩) "u".toList [] emptyPacket = none :=
  ((send_ok_iff_status200 (fun _ => []) ⟨200, []⟩ "u".toList [] emptyPacket
    (by decide)).1).2 rfl

/-- C1 (code evaluated at the failing inputs): on a sampling miss and on an
exclusion-pattern match, `Capture` returns the result channel neither closed
nor holding a value, so a caller that receives on it blocks indefinitely —
against the contract that every short-circuit gate returns a closed or
pre-resolved handle. -/
theorem capture_skip_gates_unresolved_channel :
    (Client.Capture (some samplingClient) samplingEnv (some emptyPacket) []).ch.resolved
      = false ∧
    (Client.Capture (some excludingClient) plainEnv (some emptyPacket) []).ch.resolved
      = false := by
  constructor <;> decide

/-- C4 counterexample: two capture timestamps in the same second whose
millisecond values differ (120 ms vs 125 ms) serialize to the identical JSON
string, so the serialized form is not millisecond-precision. -/
theorem timestamp_millisecond_counterexample :
    (GoTime.mk 0 120000000 0).nsec / 1000000 ≠ (GoTime.mk 0 125000000 0).nsec / 1000000 ∧
    Timestamp.MarshalJSON ⟨0, 120000000, 0⟩ = Timestamp.MarshalJSON ⟨0, 125000000, 0⟩ := by
  exact ⟨by decide, rfl⟩

/-- C4 amended: the capture timestamp serializes as a quoted UTC civil-time
string with exactly two fractional-second digits (truncated centiseconds),
and the rendering is independent of the time's display offset. -/
theorem timestamp_centisecond_utc :
    ∀ t : GoTime, t.nsec < 1000000000 →
      Timestamp.MarshalJSON t = renderCentiUTC t ∧
      Timestamp.MarshalJSON t = Timestamp.MarshalJSON t.utc := by
  intro t h
  constructor
  · have hmod : t.nsec / 10000000 % 100 = t.nsec / 10000000 :=
      Nat.mod_eq_of_lt (Nat.div_lt_of_lt_mul (by omega))
    have hshape : Timestamp.MarshalJSON t =
        '"' :: (yearChars (clockOf t.utc).year ++ '-' :: (pad2 (clockOf t.utc).month ++
        '-' :: (pad2 (clockOf t.utc).day ++ 'T' :: (pad2 (clockOf t.utc).hour ++
        ':' :: (pad2 (clockOf t.utc).minute ++ ':' :: (pad2 (clockOf t.utc).second ++
        '.' :: (pad2 (t.nsec / 10000000 % 100) ++ ['"']))))))) := rfl
    rw [hshape, hmod]
    simp [renderCentiUTC, List.append_assoc]
  · rfl

/-- Witness for the C4 amended theorem at a concrete time with an offset. -/
theorem timestamp_centisecond_utc_witness :
    Timestamp.MarshalJSON ⟨3600, 987654321, 120⟩ = renderCentiUTC ⟨3600, 987654321, 120⟩ :=
  (timestamp_centisecond_utc ⟨3600, 987654321, 120⟩ (by decide)).1

/-- C5: `serializedPacket` emits the raw JSON payload tagged
`application/json` when the payload is at most 1000 bytes, and the
deflate-compressed, standard-base64-encoded payload tagged
`application/octet-stream` when it is 1001 bytes or more. -/
theorem serializedPacket_threshold :
    ∀ (deflate : List Char → List Nat) (p : Packet),
      ((Packet.JSON p).length ≤ 1000 →
        serializedPacket deflate p = (Packet.JSON p, "application/json".toList)) ∧
      (1001 ≤ (Packet.JSON p).length →
        serializedPacket deflate p =
          (base64Encode (deflate (Packet.JSON p)), "application/octet-stream".toList)) := by
  intro deflate p
  unfold serializedPacket
  constructor
  · intro h; rw [if_neg (by omega)]
  · intro h; rw [if_pos (by omega)]

set_option maxRecDepth 100000 in
/-- Witness for C5 at the exact threshold: a 1000-byte payload is emitted raw
as JSON and a 1001-byte payload is compressed and tagged as binary. -/
theorem serializedPacket_threshold_witness :
    (Packet.JSON pack1000).length ≤ 1000 ∧
    serializedPacket (fun _ => []) pack1000 = (Packet.JSON pack1000, "application/json".toList) ∧
    1001 ≤ (Packet.JSON pack1001).length ∧
    serializedPacket (fun _ => []) pack1001 =
      (base64Encode [], "application/octet-stream".toList) := by
  have h1 : (Packet.JSON pack1000).length = 1000 := by decide
  have h2 : (Packet.JSON pack1001).length = 1001 := by decide
  exact ⟨by omega, (serializedPacket_threshold (fun _ => []) pack1000).1 (by omega),
    by omega, (serializedPacket_threshold (fun _ => []) pack1001).2 (by omega)⟩


/-! ### Lemmas about identity generation and the gate -/

/-- A successful random read makes `uuid` return `uuidHex` of the bytes. -/
theorem uuid_some (bs : List Nat) : uuid (some bs) = .ok (uuidHex bs) := rfl

/-- Hex encoding yields two characters per byte. -/
theorem hexEncode_length (l : List Nat) : (hexEncode l).length = 2 * l.length := by
  induction l with
  | nil => rfl
  | cons b rest ih => simp [hexEncode, ih]; omega

/-- A non-empty read yields a non-empty identity string. -/
theorem uuidHex_ne_nil (bs : List Nat) (h : bs ≠ []) : uuidHex bs ≠ [] := by
  intro hc
  have hl := hexEncode_length ((bs.set 6 ((bs.getD 6 0 &&& 15) ||| 64)).set 8
    (((bs.set 6 ((bs.getD 6 0 &&& 15) ||| 64)).getD 8 0 &&& 63) ||| 128))
  rw [uuidHex] at hc
  rw [hc] at hl
  simp at hl
  exact h hl

/-- The sequential defaulting steps of `initRest` as one record update. -/
theorem initRest_eq (p : Packet) (now : GoTime) (host : List Char) :
    Packet.initRest p now host = { p with
      Timestamp := if p.Timestamp.isZero then now else p.Timestamp,
      Level := if p.Level = [] then "error".toList else p.Level,
      Logger := if p.Logger = [] then "root".toList else p.Logger,
      ServerName := if p.ServerName = [] then host else p.ServerName,
      Platform := if p.Platform = [] then "go".toList else p.Platform,
      Culprit := if p.Culprit = [] then culpritOf p.Interfaces else p.Culprit } := by
  by_cases h1 : p.Timestamp.isZero <;>
  by_cases h2 : p.Level = ([] : List Char) <;>
  by_cases h3 : p.Logger = ([] : List Char) <;>
  by_cases h4 : p.ServerName = ([] : List Char) <;>
  by_cases h5 : p.Platform = ([] : List Char) <;>
  by_cases h6 : p.Culprit = ([] : List Char) <;>
  simp [Packet.initRest, h1, h2, h3, h4, h5, h6]

/-- `Init` under a successful random read: project and identity settled, the
rest defaulted, no error. -/
theorem init_some_eq2 (p : Packet) (proj : List Char) (bs : List Nat) (now : GoTime)
    (host : List Char) :
    Packet.Init p proj (some bs) now host =
      (Packet.initRest { p with
          Project := if p.Project = [] then proj else p.Project,
          EventID := if p.EventID = [] then uuidHex bs else p.EventID } now host, none) := by
  by_cases hp : p.Project = ([] : List Char) <;> by_cases he : p.EventID = ([] : List Char) <;>
    simp [Packet.Init, uuid_some, hp, he]

/-- `Init` with a failed random read but a pre-set identity still succeeds. -/
theorem init_none_eq (p : Packet) (proj : List Char) (now : GoTime) (host : List Char)
    (he : p.EventID ≠ []) :
    Packet.Init p proj none now host =
      (Packet.initRest { p with
          Project := if p.Project = [] then proj else p.Project,
          EventID := if p.EventID = [] then uuidHex [] else p.EventID } now host, none) := by
  by_cases hp : p.Project = ([] : List Char) <;> simp [Packet.Init, hp, he]

/-- `Init` with a failed random read and no identity fails after assigning
the project. -/
theorem init_fail_eq (p : Packet) (proj : List Char) (now : GoTime) (host : List Char)
    (he : p.EventID = []) :
    Packet.Init p proj none now host =
      ({ p with Project := if p.Project = [] then proj else p.Project },
        some GoError.randReadFailed) := by
  by_cases hp : p.Project = ([] : List Char) <;> simp [Packet.Init, uuid, hp, he] <;>
    (cases p; simp_all)

/-- The gate's tag merging and logger defaulting as one record update. -/
theorem mergedPacket_eq (c : ClientModel) (p : Packet) (tags : List (List Char × List Char)) :
    mergedPacket c p tags = { p with
      Logger := if p.Logger = [] ∧ c.defaultLoggerName ≠ [] then c.defaultLoggerName
        else p.Logger,
      Tags := p.Tags ++ tags.map (fun kv => Tag.mk kv.1 kv.2)
        ++ c.Tags.map (fun kv => Tag.mk kv.1 kv.2)
        ++ c.contextTags.map (fun kv => Tag.mk kv.1 kv.2) } := by
  simp only [mergedPacket, Packet.AddTags]
  split <;> simp_all [List.append_assoc]

/-- The enqueued packet, field by field. -/
theorem fgp_eq (c : ClientModel) (env : CaptureEnv) (p : Packet)
    (tags : List (List Char × List Char)) (bs : List Nat) :
    finalGatePacket c env p tags bs = { p with
      EventID := if p.EventID = [] then uuidHex bs else p.EventID,
      Project := if p.Project = [] then c.projectID else p.Project,
      Timestamp := if p.Timestamp.isZero then env.now else p.Timestamp,
      Level := if p.Level = [] then "error".toList else p.Level,
      Logger := if (if p.Logger = [] ∧ c.defaultLoggerName ≠ [] then c.defaultLoggerName
          else p.Logger) = [] then "root".toList
        else (if p.Logger = [] ∧ c.defaultLoggerName ≠ [] then c.defaultLoggerName
          else p.Logger),
      ServerName := if p.ServerName = [] then env.hostname else p.ServerName,
      Platform := if p.Platform = [] then "go".toList else p.Platform,
      Culprit := if p.Culprit = [] then culpritOf p.Interfaces else p.Culprit,
      Release := if p.Release = [] then c.release else p.Release,
      Environment := if p.Environment = [] then c.environment else p.Environment,
      Tags := p.Tags ++ tags.map (fun kv => Tag.mk kv.1 kv.2)
        ++ c.Tags.map (fun kv => Tag.mk kv.1 kv.2)
        ++ c.contextTags.map (fun kv => Tag.mk kv.1 kv.2) } := by
  by_cases hr : p.Release = ([] : List Char) <;>
  by_cases he : p.Environment = ([] : List Char) <;>
    simp [finalGatePacket, mergedPacket_eq, initRest_eq, hr, he]

/-- After the nil-client, sampling, nil-packet and exclusion gates pass,
`Capture` is the initialization-and-enqueue tail on the merged packet. -/
theorem capture_post_gates (c : ClientModel) (env : CaptureEnv) (p : Packet)
    (tags : List (List Char × List Char))
    (hs : ¬(c.sampleRate < 1 ∧ env.randFloat > c.sampleRate))
    (hx : Client.shouldExcludeErr c p.Message = false) :
    Client.Capture (some c) env (some p) tags =
      (match Packet.Init (mergedPacket c p tags) c.projectID env.randBytes env.now
          env.hostname with
       | (p1, some e) =>
         CaptureOutcome.mk [] ⟨false, [some e]⟩ none false none 0 (some p1)
       | (p1, none) =>
         let p2 := if p1.Release = [] then { p1 with Release := c.release } else p1
         let p3 := if p2.Environment = [] then { p2 with Environment := c.environment }
           else p2
         if env.queueLen < c.queueCap then
           CaptureOutcome.mk p3.EventID ⟨false, []⟩ (some p3) false none 1 (some p3)
         else
           CaptureOutcome.mk p3.EventID ⟨false, [some .packetDropped]⟩ none c.hasDropHandler
             (if c.hasDropHandler then some p3 else none) 0 (some p3)) := by
  simp only [Client.Capture, if_neg hs, hx, Bool.false_eq_true, if_false]
  rfl

/-- A passing capture with a successful random read resolves to enqueueing or
dropping the final gate packet. -/
theorem capture_pass (c : ClientModel) (env : CaptureEnv) (p : Packet)
    (tags : List (List Char × List Char)) (bs : List Nat)
    (hs : ¬(c.sampleRate < 1 ∧ env.randFloat > c.sampleRate))
    (hx : Client.shouldExcludeErr c p.Message = false)
    (hrb : env.randBytes = some bs) :
    Client.Capture (some c) env (some p) tags =
      (if env.queueLen < c.queueCap then
        CaptureOutcome.mk (finalGatePacket c env p tags bs).EventID ⟨false, []⟩
          (some (finalGatePacket c env p tags bs)) false none 1
          (some (finalGatePacket c env p tags bs))
      else
        CaptureOutcome.mk (finalGatePacket c env p tags bs).EventID
          ⟨false, [some .packetDropped]⟩ none c.hasDropHandler
          (if c.hasDropHandler then some (finalGatePacket c env p tags bs) else none) 0
          (some (finalGatePacket c env p tags bs))) := by
  simp only [Client.Capture, if_neg hs, hx, Bool.false_eq_true, if_false, hrb, init_some_eq2,
    finalGatePacket, mergedPacket]

/-- A passing capture with a failed random read but a pre-set identity behaves
like a successful pass (no random bytes are consumed). -/
theorem capture_pass_noid (c : ClientModel) (env : CaptureEnv) (p : Packet)
    (tags : List (List Char × List Char))
    (hs : ¬(c.sampleRate < 1 ∧ env.randFloat > c.sampleRate))
    (hx : Client.shouldExcludeErr c p.Message = false)
    (hrb : env.randBytes = none) (he : p.EventID ≠ []) :
    Client.Capture (some c) env (some p) tags =
      (if env.queueLen < c.queueCap then
        CaptureOutcome.mk (finalGatePacket c env p tags []).EventID ⟨false, []⟩
          (some (finalGatePacket c env p tags [])) false none 1
          (some (finalGatePacket c env p tags []))
      else
        CaptureOutcome.mk (finalGatePacket c env p tags []).EventID
          ⟨false, [some .packetDropped]⟩ none c.hasDropHandler
          (if c.hasDropHandler then some (finalGatePacket c env p tags []) else none) 0
          (some (finalGatePacket c env p tags []))) := by
  rw [capture_post_gates c env p tags hs hx, hrb,
    init_none_eq (mergedPacket c p tags) c.projectID env.now env.hostname
      (by simp [mergedPacket_eq, he])]
  simp only [finalGatePacket]

/-- A passing capture with a failed random read and no identity resolves the
channel with the read error and retires the registration. -/
theorem capture_fail (c : ClientModel) (env : CaptureEnv) (p : Packet)
    (tags : List (List Char × List Char))
    (hs : ¬(c.sampleRate < 1 ∧ env.randFloat > c.sampleRate))
    (hx : Client.shouldExcludeErr c p.Message = false)
    (hrb : env.randBytes = none) (he : p.EventID = []) :
    Client.Capture (some c) env (some p) tags =
      CaptureOutcome.mk [] ⟨false, [some .randReadFailed]⟩ none false none 0
        (some { mergedPacket c p tags with
          Project := if (mergedPacket c p tags).Project = [] then c.projectID
            else (mergedPacket c p tags).Project }) := by
  rw [capture_post_gates c env p tags hs hx, hrb,
    init_fail_eq (mergedPacket c p tags) c.projectID env.now env.hostname
      (by simp [mergedPacket_eq, he])]

/-- C7: for every capture that passes the gate's filters, tags are appended
to the event's tag list in source order — caller-supplied per-call tags, then
client-wide default tags, then accumulated context tags — additively and
without deduplication, so duplicate keys from different sources all remain. -/
theorem capture_tag_merge_order (c : ClientModel) (env : CaptureEnv) (p : Packet)
    (tags : List (List Char × List Char))
    (hs : ¬(c.sampleRate < 1 ∧ env.randFloat > c.sampleRate))
    (hx : Client.shouldExcludeErr c p.Message = false) :
    ((Client.Capture (some c) env (some p) tags).finalPacket).map Packet.Tags =
      some (p.Tags ++ tags.map (fun kv => Tag.mk kv.1 kv.2)
        ++ c.Tags.map (fun kv => Tag.mk kv.1 kv.2)
        ++ c.contextTags.map (fun kv => Tag.mk kv.1 kv.2)) := by
  cases hrb : env.randBytes with
  | some bs =>
    rw [capture_pass c env p tags bs hs hx hrb]
    split <;> simp [fgp_eq, List.append_assoc]
  | none =>
    by_cases he : p.EventID = ([] : List Char)
    · rw [capture_fail c env p tags hs hx hrb he]
      simp [mergedPacket_eq, List.append_assoc]
    · rw [capture_pass_noid c env p tags hs hx hrb he]
      split <;> simp [fgp_eq, List.append_assoc]

/-- Witness for C7: a concrete capture whose per-call, client and context
tags share the key and all survive, in source order. -/
theorem capture_tag_merge_order_witness :
    ((Client.Capture (some tagClient) plainEnv (some tagPacket)
        [("a".toList, "1".toList)]).finalPacket).map Packet.Tags =
      some (tagPacket.Tags ++ ([("a".toList, "1".toList)].map fun kv => Tag.mk kv.1 kv.2)
        ++ (tagClient.Tags.map fun kv => Tag.mk kv.1 kv.2)
        ++ (tagClient.contextTags.map fun kv => Tag.mk kv.1 kv.2)) :=
  capture_tag_merge_order tagClient plainEnv tagPacket [("a".toList, "1".toList)]
    (by decide) rfl

/-- C8: when the bounded queue is full at enqueue time, `Capture` does not
enqueue: it reports the drop to the registered handler (passing the dropped
event), resolves the result channel with the packet-dropped error, and
retires the outstanding-work registration. -/
theorem capture_queue_full_drop (c : ClientModel) (env : CaptureEnv) (p : Packet)
    (tags : List (List Char × List Char)) (bs : List Nat)
    (hs : ¬(c.sampleRate < 1 ∧ env.randFloat > c.sampleRate))
    (hx : Client.shouldExcludeErr c p.Message = false)
    (hrb : env.randBytes = some bs) (hq : c.queueCap ≤ env.queueLen) :
    (Client.Capture (some c) env (some p) tags).enqueued = none ∧
    (Client.Capture (some c) env (some p) tags).ch =
      { closed := false, buffer := [some GoError.packetDropped] } ∧
    (Client.Capture (some c) env (some p) tags).ch.resolved = true ∧
    (Client.Capture (some c) env (some p) tags).dropHandlerCalled = c.hasDropHandler ∧
    (Client.Capture (some c) env (some p) tags).dropHandlerArg =
      (if c.hasDropHandler then (Client.Capture (some c) env (some p) tags).finalPacket
       else none) ∧
    (Client.Capture (some c) env (some p) tags).wgPending = 0 := by
  rw [capture_pass c env p tags bs hs hx hrb, if_neg (by omega)]
  refine ⟨rfl, rfl, rfl, rfl, ?_, rfl⟩
  split <;> rfl

/-- Witness for C8 at a full queue of capacity one. -/
theorem capture_queue_full_drop_witness :
    (Client.Capture (some plainClient) dropEnv (some emptyPacket) []).enqueued = none ∧
    (Client.Capture (some plainClient) dropEnv (some emptyPacket) []).ch =
      { closed := false, buffer := [some GoError.packetDropped] } ∧
    (Client.Capture (some plainClient) dropEnv (some emptyPacket) []).ch.resolved = true ∧
    (Client.Capture (some plainClient) dropEnv (some emptyPacket) []).dropHandlerCalled
      = plainClient.hasDropHandler ∧
    (Client.Capture (some plainClient) dropEnv (some emptyPacket) []).dropHandlerArg =
      (if plainClient.hasDropHandler then
        (Client.Capture (some plainClient) dropEnv (some emptyPacket) []).finalPacket
       else none) ∧
    (Client.Capture (some plainClient) dropEnv (some emptyPacket) []).wgPending = 0 :=
  capture_queue_full_drop plainClient dropEnv emptyPacket [] (List.replicate 16 0)
    (by decide) rfl rfl (by decide)

/-- C3 counterexample: on a client with no project identifier configured, a
packet with an empty project is enqueued — reaches a transport attempt — with
its project field still empty. -/
theorem capture_project_empty_counterexample :
    ((Client.Capture (some plainClient) plainEnv (some emptyPacket) []).enqueued).isSome
      = true ∧
    ((Client.Capture (some plainClient) plainEnv (some emptyPacket) []).enqueued).map
      Packet.Project = some [] := by
  constructor <;> decide

/-- C3 amended: every event that is enqueued after the gate's defaulting
succeeds has non-empty identity, timestamp, level and logger — unconditionally,
including for a client with no project configured; its project is additionally
non-empty provided the packet or the client configuration carries a project
identifier (the clock and random read are the external successful inputs). -/
theorem capture_enqueued_required_fields (c : ClientModel) (env : CaptureEnv) (p : Packet)
    (tags : List (List Char × List Char)) (q : Packet) (bs : List Nat)
    (hs : ¬(c.sampleRate < 1 ∧ env.randFloat > c.sampleRate))
    (hx : Client.shouldExcludeErr c p.Message = false)
    (hrb : env.randBytes = some bs) (hbs : bs ≠ [])
    (hnow : env.now.isZero = false)
    (henq : (Client.Capture (some c) env (some p) tags).enqueued = some q) :
    q.EventID ≠ [] ∧
      (p.Project ≠ [] ∨ c.projectID ≠ [] → q.Project ≠ []) ∧
      q.Timestamp.isZero = false ∧ q.Level ≠ [] ∧ q.Logger ≠ [] := by
  rw [capture_pass c env p tags bs hs hx hrb] at henq
  by_cases hql : env.queueLen < c.queueCap
  · rw [if_pos hql] at henq
    have hq2 : finalGatePacket c env p tags bs = q := by simpa using henq
    refine ⟨?_, ?_, ?_, ?_, ?_⟩ <;> rw [← hq2]
    · by_cases h : p.EventID = ([] : List Char)
      · simp only [fgp_eq, h]
        simp
        exact uuidHex_ne_nil bs hbs
      · simp [fgp_eq, h]
    · intro hproj
      by_cases h : p.Project = ([] : List Char)
      · simp only [fgp_eq, h]
        simp
        rcases hproj with h2 | h2
        · exact absurd h h2
        · exact h2
      · simp [fgp_eq, h]
    · by_cases h : p.Timestamp.isZero
      · simp [fgp_eq, h, hnow]
      · simp only [fgp_eq, h]
        simp
        simpa using h
    · by_cases h : p.Level = ([] : List Char) <;> simp [fgp_eq, h]
    · by_cases h : (if p.Logger = [] ∧ c.defaultLoggerName ≠ [] then c.defaultLoggerName
          else p.Logger) = ([] : List Char) <;> simp [fgp_eq, h]
  · rw [if_neg hql] at henq
    simp at henq

/-- Witness for the C3 amended theorem on a client with a configured project,
the project conjunct's proviso discharged by that configuration. -/
theorem capture_enqueued_required_fields_witness :
    capturedQ.EventID ≠ [] ∧ capturedQ.Project ≠ [] ∧
    capturedQ.Timestamp.isZero = false ∧ capturedQ.Level ≠ [] ∧ capturedQ.Logger ≠ [] := by
  have h := capture_enqueued_required_fields projClient plainEnv emptyPacket [] capturedQ
    (List.replicate 16 0) (by decide) rfl rfl (by decide) (by decide) (by decide)
  exact ⟨h.1, h.2.1 (Or.inr (by decide)), h.2.2.1, h.2.2.2.1, h.2.2.2.2⟩

/-- Every hex digit the encoder emits is a lowercase hexadecimal character. -/
theorem hexDig_mem : ∀ n : Nat, hexDig n ∈ "0123456789abcdef".toList := by
  intro n
  by_cases h : n < 16
  · interval_cases n <;> decide
  · rw [hexDig, List.getD_eq_default]
    · decide
    · simpa using Nat.le_of_not_lt h

/-- Every character of a hex encoding is a lowercase hexadecimal character. -/
theorem hexEncode_mem : ∀ (l : List Nat) (c : Char),
    c ∈ hexEncode l → c ∈ "0123456789abcdef".toList := by
  intro l
  induction l with
  | nil => intro c hc; simp [hexEncode] at hc
  | cons b rest ih =>
    intro c hc
    rw [hexEncode] at hc
    simp only [List.mem_cons] at hc
    rcases hc with rfl | rfl | h
    · exact hexDig_mem _
    · exact hexDig_mem _
    · exact ih _ h

/-- The forced version nibble renders as the character 4. -/
theorem version_nibble : ∀ b : Nat, hexDig ((b &&& 15 ||| 64) / 16) = '4' := by
  intro b
  have hb : b &&& 15 < 16 := Nat.lt_succ_of_le Nat.and_le_right
  have key : ∀ m, m < 16 → hexDig ((m ||| 64) / 16) = '4' := by decide
  exact key _ hb

/-- The forced variant nibble renders as one of 8, 9, a, b. -/
theorem variant_nibble : ∀ b : Nat,
    hexDig ((b &&& 63 ||| 128) / 16) ∈ ['8', '9', 'a', 'b'] := by
  intro b
  have hb : b &&& 63 < 64 := Nat.lt_succ_of_le Nat.and_le_right
  have key : ∀ m, m < 64 → hexDig ((m ||| 128) / 16) ∈ ['8', '9', 'a', 'b'] := by decide
  exact key _ hb

/-- C9: every successfully generated event identity is a 32-character
lowercase hexadecimal string whose version nibble (character 12) is 4 and
whose variant nibble (character 16) is the IETF variant, and `Init` generates
an identity only when the event's identity is empty — a non-empty identity is
never overwritten. -/
theorem uuid_v4_format_and_generated_once :
    (∀ b0 b1 b2 b3 b4 b5 b6 b7 b8 b9 b10 b11 b12 b13 b14 b15 : Nat,
      ∃ s, uuid (some [b0, b1, b2, b3, b4, b5, b6, b7, b8, b9, b10, b11, b12, b13, b14, b15])
          = .ok s ∧
        s.length = 32 ∧
        s.get? 12 = some '4' ∧
        (∃ cv, s.get? 16 = some cv ∧ cv ∈ ['8', '9', 'a', 'b']) ∧
        ∀ ch ∈ s, ch ∈ "0123456789abcdef".toList) ∧
    (∀ (p : Packet) (proj : List Char) (rb : Option (List Nat)) (now : GoTime)
        (host : List Char), p.EventID ≠ [] →
      ((Packet.Init p proj rb now host).1).EventID = p.EventID) := by
  constructor
  · intro b0 b1 b2 b3 b4 b5 b6 b7 b8 b9 b10 b11 b12 b13 b14 b15
    refine ⟨_, rfl, rfl, ?_, ?_, ?_⟩
    · show some (hexDig ((b6 &&& 15 ||| 64) / 16)) = some '4'
      rw [version_nibble]
    · exact ⟨_, rfl, variant_nibble b8⟩
    · intro ch hch
      exact hexEncode_mem _ _ hch
  · intro p proj rb now host h
    by_cases hp : p.Project = ([] : List Char) <;> cases rb <;>
      simp [Packet.Init, uuid, hp, h, initRest_eq]

/-- Witness for C9 at the bytes 0..15 and a packet with a pre-set identity. -/
theorem uuid_v4_format_witness :
    (∃ s, uuid (some [0, 1, 2, 3, 4, 5, 6, 7, 8, 9, 10, 11, 12, 13, 14, 15]) = .ok s ∧
      s.length = 32 ∧ s.get? 12 = some '4' ∧
      (∃ cv, s.get? 16 = some cv ∧ cv ∈ ['8', '9', 'a', 'b']) ∧
      ∀ ch ∈ s, ch ∈ "0123456789abcdef".toList) ∧
    ((Packet.Init idPacket "pr".toList none ⟨0, 0, 0⟩ []).1).EventID = idPacket.EventID :=
  ⟨uuid_v4_format_and_generated_once.1 0 1 2 3 4 5 6 7 8 9 10 11 12 13 14 15,
   uuid_v4_format_and_generated_once.2 idPacket "pr".toList none ⟨0, 0, 0⟩ [] (by decide)⟩


/-! ### Lemmas for the encoder's interface map (C6) -/

theorem charListLe_total : ∀ a b : List Char, charListLe a b = true ∨ charListLe b a = true := by
  intro a
  induction a with
  | nil => intro b; left; rfl
  | cons x xs ih =>
    intro b
    cases b with
    | nil => right; rfl
    | cons y ys =>
      by_cases hxy : x < y
      · left; simp [charListLe, hxy]
      · by_cases hyx : y < x
        · right; simp [charListLe, hyx]
        · rcases ih ys with h | h
          · left; simp [charListLe, hxy, hyx, h]
          · right; simp [charListLe, hxy, hyx, h]

theorem charListLe_trans : ∀ a b c : List Char,
    charListLe a b = true → charListLe b c = true → charListLe a c = true := by
  intro a
  induction a with
  | nil => intro b c _ _; rfl
  | cons x xs ih =>
    intro b c hab hbc
    cases b with
    | nil => simp [charListLe] at hab
    | cons y ys =>
      cases c with
      | nil => simp [charListLe] at hbc
      | cons z zs =>
        by_cases h1 : x < y <;> by_cases h2 : y < z
        · simp [charListLe, lt_trans h1 h2]
        · have hyz : y = z := by
            by_cases h3 : z < y
            · simp [charListLe, h2, h3] at hbc
            · exact le_antisymm (le_of_not_lt h3) (le_of_not_lt h2)
          subst hyz
          simp [charListLe, h1]
        · have hxy : x = y := by
            by_cases h3 : y < x
            · simp [charListLe, h1, h3] at hab
            · exact le_antisymm (le_of_not_lt h3) (le_of_not_lt h1)
          subst hxy
          simp [charListLe, h2]
        · have hxy : x = y := by
            by_cases h3 : y < x
            · simp [charListLe, h1, h3] at hab
            · exact le_antisymm (le_of_not_lt h3) (le_of_not_lt h1)
          subst hxy
          have hyz : x = z := by
            by_cases h3 : z < x
            · simp [charListLe, h2, h3] at hbc
            · exact le_antisymm (le_of_not_lt h3) (le_of_not_lt h2)
          subst hyz
          simp only [charListLe, lt_irrefl, if_false] at hab hbc ⊢
          exact ih _ _ hab hbc

theorem charListLe_antisymm : ∀ a b : List Char,
    charListLe a b = true → charListLe b a = true → a = b := by
  intro a
  induction a with
  | nil =>
    intro b _ hba
    cases b with
    | nil => rfl
    | cons y ys => simp [charListLe] at hba
  | cons x xs ih =>
    intro b hab hba
    cases b with
    | nil => simp [charListLe] at hab
    | cons y ys =>
      by_cases h1 : x < y
      · simp [charListLe, h1, asymm h1] at hba
      · by_cases h2 : y < x
        · simp [charListLe, h1, h2] at hab
        · have : x = y := le_antisymm (le_of_not_lt h2) (le_of_not_lt h1)
          subst this
          simp only [charListLe, lt_irrefl, if_false] at hab hba
          rw [ih _ hab hba]

instance rIface_total : IsTotal Iface rIface :=
  ⟨fun a b => charListLe_total a.cls b.cls⟩

instance rIface_trans : IsTrans Iface rIface :=
  ⟨fun a b c => charListLe_trans a.cls b.cls c.cls⟩

theorem sortByCls_eq_insertionSort (m : List Iface) :
    sortByCls m = m.insertionSort rIface := rfl

theorem lookup_insertIface (m : List Iface) (i : Iface) (k : List Char) :
    lookupCls (insertIface m i) k = if i.cls = k then some i else lookupCls m k := by
  induction m with
  | nil => simp [insertIface, lookupCls]
  | cons j rest ih =>
    rw [insertIface]
    by_cases hji : j.cls = i.cls
    · rw [if_pos hji]
      by_cases hk : i.cls = k
      · simp [lookupCls, hk]
      · simp [lookupCls, hk, hji]
    · rw [if_neg hji]
      by_cases hjk : j.cls = k
      · have hik : i.cls ≠ k := fun h => hji (hjk.trans h.symm)
        simp [lookupCls, hjk, hik]
      · simp [lookupCls, hjk, ih]

theorem insertIface_mem (m : List Iface) (i : Iface) :
    ∀ j ∈ insertIface m i, j ∈ m ∨ j = i := by
  induction m with
  | nil => intro j hj; right; simpa [insertIface] using hj
  | cons a rest ih =>
    intro j hj
    rw [insertIface] at hj
    by_cases ha : a.cls = i.cls
    · rw [if_pos ha] at hj
      rcases List.mem_cons.1 hj with rfl | hj
      · right; rfl
      · left; exact List.mem_cons_of_mem _ hj
    · rw [if_neg ha] at hj
      rcases List.mem_cons.1 hj with rfl | hj
      · left; exact List.mem_cons_self _ _
      · rcases ih j hj with h | h
        · left; exact List.mem_cons_of_mem _ h
        · right; exact h

theorem nodup_insertIface (m : List Iface) (i : Iface) (h : NodupKeys m) :
    NodupKeys (insertIface m i) := by
  induction m with
  | nil => simp [insertIface, NodupKeys]
  | cons a rest ih =>
    rw [NodupKeys, List.pairwise_cons] at h
    rw [insertIface]
    by_cases ha : a.cls = i.cls
    · rw [if_pos ha]
      rw [NodupKeys, List.pairwise_cons]
      exact ⟨fun b hb => ha ▸ h.1 b hb, h.2⟩
    · rw [if_neg ha]
      rw [NodupKeys, List.pairwise_cons]
      constructor
      · intro b hb
        rcases insertIface_mem rest i b hb with hbm | rfl
        · exact h.1 b hbm
        · exact ha
      · exact ih h.2

theorem mem_iff_lookup (m : List Iface) (h : NodupKeys m) (x : Iface) :
    x ∈ m ↔ lookupCls m x.cls = some x := by
  induction m with
  | nil => simp [lookupCls]
  | cons a rest ih =>
    rw [NodupKeys, List.pairwise_cons] at h
    constructor
    · intro hx
      rcases List.mem_cons.1 hx with rfl | hx
      · simp [lookupCls]
      · have hne : a.cls ≠ x.cls := h.1 x hx
        rw [lookupCls, if_neg hne]
        exact (ih h.2).1 hx
    · intro hl
      rw [lookupCls] at hl
      by_cases ha : a.cls = x.cls
      · rw [if_pos ha] at hl
        exact (Option.some_inj.1 hl) ▸ List.mem_cons_self _ _
      · rw [if_neg ha] at hl
        exact List.mem_cons_of_mem _ ((ih h.2).2 hl)

theorem sorted_nodupkeys_eq : ∀ l₁ l₂ : List Iface, l₁.Pairwise rIface → l₂.Pairwise rIface →
    NodupKeys l₁ → NodupKeys l₂ → (∀ x, x ∈ l₁ ↔ x ∈ l₂) → l₁ = l₂ := by
  intro l₁
  induction l₁ with
  | nil =>
    intro l₂ _ _ _ _ hmem
    cases l₂ with
    | nil => rfl
    | cons b t₂ => exact absurd ((hmem b).2 (List.mem_cons_self _ _)) (List.not_mem_nil b)
  | cons a t₁ ih =>
    intro l₂ hs₁ hs₂ hnd₁ hnd₂ hmem
    cases l₂ with
    | nil => exact absurd ((hmem a).1 (List.mem_cons_self _ _)) (List.not_mem_nil a)
    | cons b t₂ =>
      rw [List.pairwise_cons] at hs₁ hs₂
      rw [NodupKeys, List.pairwise_cons] at hnd₁ hnd₂
      have hab : a = b := by
        have ha2 : a ∈ b :: t₂ := (hmem a).1 (List.mem_cons_self _ _)
        rcases List.mem_cons.1 ha2 with h | h
        · exact h
        · have hb1 : b ∈ a :: t₁ := (hmem b).2 (List.mem_cons_self _ _)
          rcases List.mem_cons.1 hb1 with h' | h'
          · exact h'.symm
          · have r1 : rIface a b := hs₁.1 _ h'
            have r2 : rIface b a := hs₂.1 _ h
            have hcls : a.cls = b.cls := charListLe_antisymm _ _ r1 r2
            exact absurd hcls.symm (hnd₂.1 _ h)
      subst hab
      congr 1
      apply ih t₂ hs₁.2 hs₂.2 hnd₁.2 hnd₂.2
      intro x
      constructor
      · intro hx
        have hx2 : x ∈ a :: t₂ := (hmem x).1 (List.mem_cons_of_mem _ hx)
        rcases List.mem_cons.1 hx2 with rfl | h
        · exact absurd rfl (hnd₁.1 _ hx)
        · exact h
      · intro hx
        have hx1 : x ∈ a :: t₁ := (hmem x).2 (List.mem_cons_of_mem _ hx)
        rcases List.mem_cons.1 hx1 with rfl | h
        · exact absurd rfl (hnd₂.1 _ hx)
        · exact h

theorem nodup_sortByCls (m : List Iface) (h : NodupKeys m) : NodupKeys (sortByCls m) := by
  rw [sortByCls_eq_insertionSort]
  exact ((List.perm_insertionSort rIface m).pairwise_iff
    (fun a b hab => hab.symm : Symmetric fun a b : Iface => a.cls ≠ b.cls)).2 h

theorem sortByCls_canon (m₁ m₂ : List Iface) (h₁ : NodupKeys m₁) (h₂ : NodupKeys m₂)
    (hl : ∀ k, lookupCls m₁ k = lookupCls m₂ k) : sortByCls m₁ = sortByCls m₂ := by
  apply sorted_nodupkeys_eq
  · rw [sortByCls_eq_insertionSort]; exact List.sorted_insertionSort rIface m₁
  · rw [sortByCls_eq_insertionSort]; exact List.sorted_insertionSort rIface m₂
  · exact nodup_sortByCls m₁ h₁
  · exact nodup_sortByCls m₂ h₂
  · intro x
    rw [sortByCls_eq_insertionSort, sortByCls_eq_insertionSort,
      List.mem_insertionSort, List.mem_insertionSort,
      mem_iff_lookup m₁ h₁ x, mem_iff_lookup m₂ h₂ x, hl]

theorem lastIface_nil (k : List Char) : lastIface [] k = none := rfl

theorem lastIface_cons (oi : Option Iface) (rest : List (Option Iface)) (k : List Char) :
    lastIface (oi :: rest) k =
      (match lastIface rest k with
       | some i => some i
       | none =>
         match oi with
         | some i => if i.cls = k then some i else none
         | none => none) := rfl

theorem lookup_buildFrom : ∀ (l : List (Option Iface)) (m : List Iface) (k : List Char),
    lookupCls (l.foldl (fun m oi => match oi with
      | none => m
      | some i => insertIface m i) m) k =
      (match lastIface l k with
       | some i => some i
       | none => lookupCls m k) := by
  intro l
  induction l with
  | nil => intro m k; simp [lastIface_nil]
  | cons oi rest ih =>
    intro m k
    rw [List.foldl_cons, lastIface_cons, ih]
    cases h : lastIface rest k with
    | some i => simp
    | none =>
      cases oi with
      | none => simp
      | some i =>
        simp only [lookup_insertIface]
        by_cases hik : i.cls = k <;> simp [hik]

theorem nodup_buildFrom : ∀ (l : List (Option Iface)) (m : List Iface), NodupKeys m →
    NodupKeys (l.foldl (fun m oi => match oi with
      | none => m
      | some i => insertIface m i) m) := by
  intro l
  induction l with
  | nil => intro m h; exact h
  | cons oi rest ih =>
    intro m h
    rw [List.foldl_cons]
    cases oi with
    | none => exact ih m h
    | some i => exact ih _ (nodup_insertIface m i h)

theorem nodup_buildMap (l : List (Option Iface)) : NodupKeys (buildMap l) :=
  nodup_buildFrom l [] List.Pairwise.nil

theorem lookup_buildMap (l : List (Option Iface)) (k : List Char) :
    lookupCls (buildMap l) k =
      (match lastIface l k with
       | some i => some i
       | none => none) := by
  rw [buildMap, lookup_buildFrom]
  cases lastIface l k <;> simp [lookupCls]

theorem lastIface_append : ∀ (l₁ l₂ : List (Option Iface)) (k : List Char),
    lastIface (l₁ ++ l₂) k =
      (match lastIface l₂ k with
       | some i => some i
       | none => lastIface l₁ k) := by
  intro l₁
  induction l₁ with
  | nil => intro l₂ k; cases h : lastIface l₂ k <;> simp [lastIface_nil, h]
  | cons oi rest ih =>
    intro l₂ k
    rw [List.cons_append, lastIface_cons, ih, lastIface_cons]
    cases h : lastIface l₂ k with
    | some i => simp
    | none => cases lastIface rest k <;> simp

theorem lastIface_here (zs : List (Option Iface)) (i : Iface) :
    ∃ j, lastIface (some i :: zs) i.cls = some j := by
  rw [lastIface_cons]
  cases h : lastIface zs i.cls with
  | some j => exact ⟨j, by simp⟩
  | none => exact ⟨i, by simp⟩

theorem lastIface_dup (xs ys zs : List (Option Iface)) (i₁ i₂ : Iface)
    (hcls : i₁.cls = i₂.cls) (k : List Char) :
    lastIface (xs ++ some i₁ :: (ys ++ some i₂ :: zs)) k =
      lastIface (xs ++ (ys ++ some i₂ :: zs)) k := by
  rw [lastIface_append, lastIface_append]
  have hmid : lastIface (some i₁ :: (ys ++ some i₂ :: zs)) k =
      lastIface (ys ++ some i₂ :: zs) k := by
    rw [lastIface_cons]
    cases h : lastIface (ys ++ some i₂ :: zs) k with
    | some j => simp
    | none =>
      by_cases hik : i₁.cls = k
      · exfalso
        subst hik
        obtain ⟨j, hj⟩ := lastIface_here zs i₂
        rw [lastIface_append, hcls, hj] at h
        simp at h
      · simp [hik]
  rw [hmid]

theorem buildMap_ne_nil (xs zs : List (Option Iface)) (i : Iface) :
    buildMap (xs ++ some i :: zs) ≠ [] := by
  intro hc
  have h := lookup_buildMap (xs ++ some i :: zs) i.cls
  rw [hc] at h
  rw [lastIface_append] at h
  obtain ⟨j, hj⟩ := lastIface_here zs i
  rw [hj] at h
  simp [lookupCls] at h

theorem joinComma_append : ∀ A B : List (List Char), A ≠ [] → B ≠ [] →
    joinComma (A ++ B) = joinComma A ++ ',' :: joinComma B := by
  intro A
  induction A with
  | nil => intro B hA _; exact absurd rfl hA
  | cons x xs ih =>
    intro B hA hB
    cases xs with
    | nil =>
      cases B with
      | nil => exact absurd rfl hB
      | cons b bs => simp [joinComma]
    | cons y ys =>
      rw [List.cons_append,
        show joinComma (x :: (y :: ys ++ B)) = x ++ ',' :: joinComma (y :: ys ++ B) from rfl,
        ih B (by simp) hB,
        show joinComma (x :: y :: ys) = x ++ ',' :: joinComma (y :: ys) from rfl]
      simp [List.append_assoc]

theorem set_append_last : ∀ (l : List Char) (x y : Char),
    (l ++ [x]).set l.length y = l ++ [y] := by
  intro l x y
  induction l with
  | nil => rfl
  | cons a as ih => simp [List.set, ih]

theorem jsonObj_splice (A B : List (List Char × List Char)) (hA : A ≠ []) (hB : B ≠ []) :
    (jsonObj A).set ((jsonObj A).length - 1) ',' ++ (jsonObj B).drop 1 = jsonObj (A ++ B) := by
  rw [jsonObj, jsonObj, jsonObj]
  have hlen : ('{' :: joinComma (A.map renderField) ++ ['}']).length - 1
      = ('{' :: joinComma (A.map renderField)).length := by simp
  rw [hlen, set_append_last, List.map_append,
    joinComma_append (A.map renderField) (B.map renderField)
      (by simpa using hA) (by simpa using hB)]
  simp [List.append_assoc]

theorem packetJSON_flatten (p : Packet) :
    Packet.JSON p = jsonObj (structFields p ++
      (sortByCls (buildMap p.Interfaces)).map (fun i => (i.cls, i.body))) := by
  rw [Packet.JSON]
  by_cases h : (buildMap p.Interfaces).length > 0
  · rw [if_pos h, marshalIfaces,
      ← jsonObj_splice (structFields p) ((sortByCls (buildMap p.Interfaces)).map
        (fun i => (i.cls, i.body)))
        (by simp [structFields])
        (by
          intro hc
          have h0 := congrArg List.length hc
          simp only [List.length_map, sortByCls_eq_insertionSort,
            (List.perm_insertionSort rIface (buildMap p.Interfaces)).length_eq,
            List.length_nil] at h0
          omega)]
  · rw [if_neg h]
    have hb : buildMap p.Interfaces = [] := List.length_eq_zero.1 (by omega)
    rw [hb]
    show jsonObj (structFields p) = jsonObj (structFields p ++ List.map (fun i => (i.cls, i.body)) ([] : List Iface))
    simp

/-- C6: `Packet.JSON` flattens the fact list into the event's top-level JSON
object keyed by each fact's declared class name (map keys in the order
`encoding/json` writes them), and when two facts share a class name the one
appearing later in the list silently overwrites the earlier one — the encoded
output is identical to that of the list without the earlier fact. -/
theorem packet_json_flatten_and_overwrite :
    (∀ p : Packet, Packet.JSON p =
      jsonObj (structFields p ++
        (sortByCls (buildMap p.Interfaces)).map (fun i => (i.cls, i.body)))) ∧
    (∀ (p : Packet) (xs ys zs : List (Option Iface)) (i₁ i₂ : Iface), i₁.cls = i₂.cls →
      Packet.JSON { p with Interfaces := xs ++ some i₁ :: (ys ++ some i₂ :: zs) } =
      Packet.JSON { p with Interfaces := xs ++ (ys ++ some i₂ :: zs) }) := by
  refine ⟨packetJSON_flatten, ?_⟩
  intro p xs ys zs i₁ i₂ hcls
  rw [packetJSON_flatten, packetJSON_flatten]
  have hI₁ : ({ p with Interfaces := xs ++ some i₁ :: (ys ++ some i₂ :: zs) } :
      Packet).Interfaces = xs ++ some i₁ :: (ys ++ some i₂ :: zs) := rfl
  have hI₂ : ({ p with Interfaces := xs ++ (ys ++ some i₂ :: zs) } :
      Packet).Interfaces = xs ++ (ys ++ some i₂ :: zs) := rfl
  have hsf : structFields { p with Interfaces := xs ++ some i₁ :: (ys ++ some i₂ :: zs) }
      = structFields { p with Interfaces := xs ++ (ys ++ some i₂ :: zs) } := rfl
  rw [hI₁, hI₂, hsf,
    sortByCls_canon (buildMap (xs ++ some i₁ :: (ys ++ some i₂ :: zs)))
      (buildMap (xs ++ (ys ++ some i₂ :: zs)))
      (nodup_buildMap _) (nodup_buildMap _)
      (fun k => by rw [lookup_buildMap, lookup_buildMap, lastIface_dup xs ys zs i₁ i₂ hcls k])]

/-- Witness for C6: two concrete facts with the same class, where the later
one wins in the encoded output. -/
theorem packet_json_overwrite_witness :
    Packet.JSON { emptyPacket with
      Interfaces := [some (Iface.mk "zz".toList "9".toList none),
        some (Iface.mk "zz".toList "3".toList none)] } =
    Packet.JSON { emptyPacket with
      Interfaces := [some (Iface.mk "zz".toList "3".toList none)] } :=
  packet_json_flatten_and_overwrite.2 emptyPacket [] [] []
    (Iface.mk "zz".toList "9".toList none) (Iface.mk "zz".toList "3".toList none) rfl


end Raven
